import Mathlib

/-!
Verification of the claude-code-agent repository against its specification.

The repository contains two groups of code:
  * calendar utility scripts under `scripts/` (`ical_fetch.py`,
    `calendar_update.py`, `daily_briefing.py`, ...), embedded below directly
    from the source;
  * the inbox-triage pipeline described by the specification, whose script is
    not present under the source tree; its data model and operations are
    modelled from the specification (each such definition carries a
    `Modelled from the spec:` doc comment).

Machine integers do not occur (Python integers are unbounded); strings are
modelled as Lean `String` / `List Char`; fallible code returns `Option` or
`Except`.
-/

/-! ## A small JSON model

`json.loads` (used by `daily_briefing.py`) and the classifier-verdict
extraction both parse JSON.  We embed a JSON value type and a recursive-descent
parser.  Numbers are kept as their raw lexeme (no numeric semantics is ever
needed), and the parser accepts the standard surface syntax: `null`, `true`,
`false`, numbers, strings with the usual escapes, arrays and objects. -/

inductive Json where
  | null : Json
  | bool (b : Bool) : Json
  | num (lexeme : String) : Json
  | str (s : String) : Json
  | arr (items : List Json) : Json
  | obj (fields : List (String × Json)) : Json

/-- Whitespace skipping, as in the JSON grammar. -/
def skipWs (cs : List Char) : List Char :=
  cs.dropWhile (fun c => c == ' ' || c == '\n' || c == '\t' || c == '\r')

/-- Is `pre` a prefix of `cs`? -/
def isPrefixCh : List Char → List Char → Bool
  | [], _ => true
  | _ :: _, [] => false
  | p :: ps, c :: cs => p == c && isPrefixCh ps cs

/-- Does `pat` occur as a contiguous subsequence of `cs`? -/
def containsSeq (pat : List Char) : List Char → Bool
  | [] => pat.isEmpty
  | c :: cs => isPrefixCh pat (c :: cs) || containsSeq pat cs

/-- Characters that may occur in a JSON number lexeme. -/
def isNumChar (c : Char) : Bool :=
  c.isDigit || c == '-' || c == '+' || c == '.' || c == 'e' || c == 'E'

/-- Hexadecimal digit value. -/
def hexVal (c : Char) : Option Nat :=
  if c.isDigit then some (c.toNat - 48)
  else if 'a' ≤ c && c ≤ 'f' then some (c.toNat - 87)
  else if 'A' ≤ c && c ≤ 'F' then some (c.toNat - 55)
  else none

/-- Parse the body of a JSON string literal (the opening quote already
consumed), returning the decoded characters and the rest of the input. -/
def parseStrBody : Nat → List Char → Option (List Char × List Char)
  | 0, _ => none
  | _, [] => none
  | fuel + 1, c :: cs =>
    if c == '"' then some ([], cs)
    else if c == '\\' then
      match cs with
      | [] => none
      | e :: cs' =>
        let dec : Option (Char × List Char) :=
          if e == '"' then some ('"', cs')
          else if e == '\\' then some ('\\', cs')
          else if e == '/' then some ('/', cs')
          else if e == 'n' then some ('\n', cs')
          else if e == 't' then some ('\t', cs')
          else if e == 'r' then some ('\r', cs')
          else if e == 'b' then some (Char.ofNat 8, cs')
          else if e == 'f' then some (Char.ofNat 12, cs')
          else if e == 'u' then
            match cs' with
            | h1 :: h2 :: h3 :: h4 :: cs'' =>
              match hexVal h1, hexVal h2, hexVal h3, hexVal h4 with
              | some a, some b, some c4, some d =>
                some (Char.ofNat (((a * 16 + b) * 16 + c4) * 16 + d), cs'')
              | _, _, _, _ => none
            | _ => none
          else none
        match dec with
        | none => none
        | some (ch, rest) =>
          match parseStrBody fuel rest with
          | some (tail, rest') => some (ch :: tail, rest')
          | none => none
    else
      match parseStrBody fuel cs with
      | some (tail, rest') => some (c :: tail, rest')
      | none => none

mutual

/-- Parse one JSON value from the input. -/
def parseVal : Nat → List Char → Option (Json × List Char)
  | 0, _ => none
  | fuel + 1, cs =>
    match skipWs cs with
    | [] => none
    | c :: rest =>
      if c == 'n' then
        if isPrefixCh ['u', 'l', 'l'] rest then some (Json.null, rest.drop 3)
        else none
      else if c == 't' then
        if isPrefixCh ['r', 'u', 'e'] rest then some (Json.bool true, rest.drop 3)
        else none
      else if c == 'f' then
        if isPrefixCh ['a', 'l', 's', 'e'] rest then some (Json.bool false, rest.drop 4)
        else none
      else if c == '"' then
        match parseStrBody (rest.length + 1) rest with
        | some (body, rest') => some (Json.str (String.mk body), rest')
        | none => none
      else if c == '[' then
        parseArrItems fuel rest
      else if c == '\x7b' then
        parseObjFields fuel rest
      else if c == '-' || c.isDigit then
        let tok := (c :: rest).takeWhile isNumChar
        if tok.isEmpty then none
        else some (Json.num (String.mk tok), (c :: rest).dropWhile isNumChar)
      else none

/-- Parse the items of an array (the `[` already consumed). -/
def parseArrItems : Nat → List Char → Option (Json × List Char)
  | 0, _ => none
  | fuel + 1, cs =>
    match skipWs cs with
    | ']' :: rest => some (Json.arr [], rest)
    | cs' =>
      match parseVal fuel cs' with
      | none => none
      | some (v, rest) =>
        match parseArrTail fuel rest with
        | some (vs, rest') => some (Json.arr (v :: vs), rest')
        | none => none

/-- Parse `, item ... ]` after the first array item. -/
def parseArrTail : Nat → List Char → Option (List Json × List Char)
  | 0, _ => none
  | fuel + 1, cs =>
    match skipWs cs with
    | ']' :: rest => some ([], rest)
    | ',' :: rest =>
      match parseVal fuel rest with
      | none => none
      | some (v, rest') =>
        match parseArrTail fuel rest' with
        | some (vs, rest'') => some (v :: vs, rest'')
        | none => none
    | _ => none

/-- Parse the fields of an object (the `{` already consumed). -/
def parseObjFields : Nat → List Char → Option (Json × List Char)
  | 0, _ => none
  | fuel + 1, cs =>
    match skipWs cs with
    | '\x7d' :: rest => some (Json.obj [], rest)
    | cs' =>
      match parseOneField fuel cs' with
      | none => none
      | some (kv, rest) =>
        match parseObjTail fuel rest with
        | some (kvs, rest') => some (Json.obj (kv :: kvs), rest')
        | none => none

/-- Parse one `"key" : value` field. -/
def parseOneField : Nat → List Char → Option ((String × Json) × List Char)
  | 0, _ => none
  | fuel + 1, cs =>
    match skipWs cs with
    | '"' :: rest =>
      match parseStrBody (rest.length + 1) rest with
      | none => none
      | some (key, rest') =>
        match skipWs rest' with
        | ':' :: rest'' =>
          match parseVal fuel rest'' with
          | none => none
          | some (v, rest''') => some ((String.mk key, v), rest''')
        | _ => none
    | _ => none

/-- Parse `, field ... }` after the first object field. -/
def parseObjTail : Nat → List Char → Option (List (String × Json) × List Char)
  | 0, _ => none
  | fuel + 1, cs =>
    match skipWs cs with
    | '\x7d' :: rest => some ([], rest)
    | ',' :: rest =>
      match parseOneField fuel rest with
      | none => none
      | some (kv, rest') =>
        match parseObjTail fuel rest' with
        | some (kvs, rest'') => some (kv :: kvs, rest'')
        | none => none
    | _ => none

end

/-- Full-input JSON parse: one value, nothing but whitespace after it.
This is the model of Python's `json.loads` (which raises `JSONDecodeError`
exactly when this returns `none`). -/
def jsonParse (cs : List Char) : Option Json :=
  match parseVal (2 * cs.length + 4) cs with
  | some (j, rest) => if (skipWs rest).isEmpty then some j else none
  | none => none

/-- Field lookup on a JSON object (`none` on non-objects or missing keys);
the model of `dict.get` on a parsed JSON dict. -/
def Json.getField : Json → String → Option Json
  | .obj fields, key => (fields.find? (fun kv => kv.1 == key)).map (fun kv => kv.2)
  | _, _ => none

example : jsonParse "null".data = some Json.null := by rfl
example : jsonParse "".data = none := by rfl

/-! ## `scripts/daily_briefing.py`

The script runs `ical_fetch.py` as a subprocess with `capture_output=True`,
then executes `data = json.loads(result.stdout)` on line 17 without inspecting
`result.returncode` or `result.stderr`, builds the briefing lines and prints
them once at the very end.  We embed the whole module body after the
`subprocess.run` call as a function of the subprocess result (plus the
formatted current date, which stands in for `now.strftime(...)`).
`datetime.fromisoformat(...).strftime("%H:%M")` on an isoformat string is
embedded as extracting characters 11..15 of the string; a non-string or
missing `start`/`summary` field, or a non-list `events` value, raises in
Python and is embedded as an `Except.error`. -/

/-- The result of `subprocess.run(..., capture_output=True, text=True)`. -/
structure SubprocResult where
  stdout : String
  stderr : String
  returncode : Int

/-- Python truthiness of a JSON value (`if not events:`). -/
def jsonTruthy : Json → Bool
  | .null => false
  | .bool b => b
  | .num lexeme => !(lexeme == "0" || lexeme == "0.0" || lexeme == "-0")
  | .str s => !(s == "")
  | .arr items => !items.isEmpty
  | .obj fields => !fields.isEmpty

/-- One `• *HH:MM* — summary 📍 location` line of the briefing. -/
def eventLine (e : Json) : Except String String :=
  match e.getField "start", e.getField "summary" with
  | some (.str st), some (.str smry) =>
    let timeStr := String.mk ((st.data.drop 11).take 5)
    let loc :=
      match e.getField "location" with
      | some (.str l) => if l == "" then "" else " 📍 " ++ l
      | _ => ""
    .ok ("• *" ++ timeStr ++ "* — " ++ smry ++ loc)
  | _, _ => .error "KeyError"

/-- The module body of `daily_briefing.py` after the `subprocess.run` call:
`json.loads(result.stdout)`, `data.get("events", [])`, line building.
An `Except.error` is an uncaught Python exception. -/
def dailyBriefing (todayStr : String) (res : SubprocResult) : Except String (List String) :=
  match jsonParse res.stdout.data with
  | none => .error "JSONDecodeError"
  | some data =>
    let eventsVal := (data.getField "events").getD (Json.arr [])
    let header := "📅 *Good morning! Here's your day — " ++ todayStr ++ "*\n"
    if !jsonTruthy eventsVal then
      .ok [header, "No events today. Enjoy the free day! 🎉"]
    else
      match eventsVal with
      | .arr events =>
        match events.mapM eventLine with
        | .ok lines =>
          let plural := if events.length != 1 then "s" else ""
          .ok (header ::
            ("You have *" ++ toString events.length ++ " event" ++ plural ++ "* today:\n")
            :: lines)
        | .error e => .error e
      | _ => .error "TypeError"

/-- What the script prints: the joined lines on success, nothing when an
uncaught exception aborts it before the final `print`. -/
def printedBriefing (todayStr : String) (res : SubprocResult) : Option String :=
  match dailyBriefing todayStr res with
  | .ok lines => some ("\n".intercalate lines)
  | .error _ => none

/-! ## `scripts/calendar/ical_fetch.py`

`fetch_and_parse` (lines 21–81) fetches the feed, walks the calendar
components and collects the in-range `VEVENT`s into `events` (lines 38–73),
then sorts by the isoformat `start` string and truncates (lines 75–81).  The
network fetch, iCal parsing and timezone conversion are interactions with
external collaborators; we embed the function from the collected in-range
event list onward, exactly lines 75–81. -/

/-- One entry of the `events` list built on lines 66–73. -/
structure IcsEvent where
  summary : String
  start : String
  end_ : Option String
  location : String
  description : String
  uid : String

/-- Lexicographic code-point order on character lists: the order Python uses
to compare `str` keys in `events.sort(key=lambda e: e["start"])`. -/
def lexLe : List Char → List Char → Bool
  | [], _ => true
  | _ :: _, [] => false
  | a :: as_, b :: bs => if a.toNat < b.toNat then true
      else if b.toNat < a.toNat then false
      else lexLe as_ bs

/-- String comparison used as the sort key order. -/
def startLe (a b : IcsEvent) : Bool := lexLe a.start.data b.start.data

/-- The successful return value of `fetch_and_parse`. -/
structure FetchOk where
  events : List IcsEvent
  count : Nat
  range_start : String
  range_end : String

/-- Lines 75–81 of `fetch_and_parse`: sort the in-range events by `start`,
return the first `max_events` of them, and report `count` as the length of
the full in-range list. -/
def fetch_and_parse (inRange : List IcsEvent) (max_events : Nat)
    (rangeStart rangeEnd : String) : FetchOk :=
  let sorted := inRange.mergeSort startLe
  { events := sorted.take max_events
    count := inRange.length
    range_start := rangeStart
    range_end := rangeEnd }

/-! ## `scripts/calendar/calendar_update.py`

`main` fetches the event, then mutates its fields from the parsed arguments
(lines 37–52) and submits the update.  We embed the field-mutation block.
An absent command-line flag is `args.x = None`, embedded as `none`; a flag
supplied with value `v` is `some v`.  Note the asymmetry in the source:
`if args.summary:` / `if args.start:` / `if args.end:` use Python truthiness
(skipping both `None` and `""`), while `if args.description is not None:` and
`if args.location is not None:` overwrite on `""`. -/

/-- A Google Calendar event time: either `{"dateTime":…, "timeZone":…}` or
`{"date":…}`. -/
inductive EventTime where
  | dateTime (dt : String) (tz : String) : EventTime
  | date (d : String) : EventTime
  | absent : EventTime
  deriving DecidableEq

/-- The fields of the fetched event that lines 37–52 may mutate. -/
structure CalEvent where
  summary : String
  description : String
  location : String
  start : EventTime
  end_ : EventTime
  deriving DecidableEq

/-- The parsed command-line arguments of `calendar_update.py`. -/
structure CalArgs where
  summary : Option String
  description : Option String
  location : Option String
  start : Option String
  end_ : Option String
  timezone : String

/-- `"T" in args.start` decides dateTime vs all-day date (lines 44, 49). -/
def toEventTime (s : String) (tz : String) : EventTime :=
  if s.data.contains 'T' then .dateTime s tz else .date s

/-- Lines 37–52 of `calendar_update.py` `main`: apply the supplied flags to
the fetched event. -/
def updateEventFields (args : CalArgs) (event : CalEvent) : CalEvent :=
  let event := match args.summary with
    | some s => if s == "" then event else { event with summary := s }
    | none => event
  let event := match args.description with
    | some d => { event with description := d }
    | none => event
  let event := match args.location with
    | some l => { event with location := l }
    | none => event
  let event := match args.start with
    | some s => if s == "" then event else { event with start := toEventTime s args.timezone }
    | none => event
  let event := match args.end_ with
    | some s => if s == "" then event else { event with end_ := toEventTime s args.timezone }
    | none => event
  event

/-! ## The inbox-triage pipeline (modelled from the spec)

The triage script itself is not present under the source tree; every
definition in this section is modelled from the specification's words
(sections 3–4.5 of the spec).  Collaborators — the mailbox store, the
classifier service and the third-party unsubscribe endpoints — are oracles
passed in as functions; every call the pipeline issues to a collaborator is
recorded in an `Effect` trace. -/

/-- Modelled from the spec: a message classification is one of
`{important, unimportant}` (spec §3). -/
inductive TriClass where
  | important : TriClass
  | unimportant : TriClass
  deriving DecidableEq

/-- The display string of an (optional) classification; the empty string
means "absent until the Classifier Gateway sets it" (spec §3). -/
def classStr : Option TriClass → String
  | none => ""
  | some .important => "important"
  | some .unimportant => "unimportant"

/-- Modelled from the spec: token/cost accounting pair (spec §3). -/
structure Usage where
  input : Nat
  output : Nat
  deriving DecidableEq

/-- Modelled from the spec: the Message data model (spec §3).  `id` is the
opaque mailbox-assigned identifier; `classification` is absent until set. -/
structure Message where
  id : Nat
  fromAddr : String
  toAddr : String
  subject : String
  date : String
  body_excerpt : String
  unsubscribe_header : String
  unsubscribe_post_header : String
  classification : Option TriClass
  reason : String
  usage : Usage
  deriving DecidableEq

/-- Modelled from the spec: the transient Classification Verdict
(spec §3). -/
structure Verdict where
  classification : TriClass
  reason : String
  deriving DecidableEq

/-- Modelled from the spec: the safe default Verdict substituted when the
classifier's output cannot be parsed (spec §3). -/
def defaultVerdict : Verdict :=
  { classification := .important, reason := "could not parse, defaulting to important" }

/-- Modelled from the spec: the verdict's `classification` field read from
JSON; the bias toward `important` (spec §3) maps every string other than
`"unimportant"` to `important`. -/
def classOfString (s : String) : TriClass :=
  if s == "unimportant" then .unimportant else .important

/-- Modelled from the spec: "attempt to locate a single JSON object substring
in the response text" (spec §4.2) — the span from the first `{` to the last
`}`, when both exist in that order. -/
def extractJsonChars (cs : List Char) : Option (List Char) :=
  match cs.dropWhile (fun c => !(c == '\x7b')) with
  | [] => none
  | fromBrace =>
    match fromBrace.reverse.dropWhile (fun c => !(c == '\x7d')) with
    | [] => none
    | upto => some upto.reverse

/-- Modelled from the spec: the Classifier Gateway's parsing policy
(spec §4.2): locate a JSON object substring; if found and parseable use its
`classification`/`reason` fields (default `reason` to empty, default
`classification` to `important` when the field is missing); otherwise the
safe default of spec §3. -/
def parseVerdict (text : String) : Verdict :=
  match extractJsonChars text.data with
  | none => defaultVerdict
  | some js =>
    match jsonParse js with
    | none => defaultVerdict
    | some j =>
      let cls := match j.getField "classification" with
        | some (.str s) => classOfString s
        | _ => .important
      let rsn := match j.getField "reason" with
        | some (.str s) => s
        | _ => ""
      { classification := cls, reason := rsn }

/-- Modelled from the spec: one call issued to a collaborator (spec §4, §6):
a classifier call, the mailbox mutations of the Archival Engine, or an
unsubscribe HTTP request. -/
inductive Effect where
  | classifierCall (msgId : Nat) : Effect
  | labelCreate (name : String) : Effect
  | copyToLabel (msgId : Nat) (label : String) : Effect
  | flagDelete (msgId : Nat) : Effect
  | purge : Effect
  | httpGet (url : String) : Effect
  | httpPost (url : String) (body : String) : Effect
  deriving DecidableEq

/-- A mutation or outbound-HTTP effect — everything except a classifier
call. -/
def Effect.isMutation : Effect → Bool
  | .classifierCall _ => false
  | _ => true

/-- Modelled from the spec: the raw header/body fields the store resolves a
message identifier to (spec §4.1, §6: "fetch-by-id returning raw message
bytes", normalized by the adapter). -/
structure RawMsg where
  fromAddr : String
  toAddr : String
  subject : String
  date : String
  body_excerpt : String
  unsubscribe_header : String
  unsubscribe_post_header : String

/-- Modelled from the spec: the mailbox store collaborator (spec §4.1, §6):
search-by-filter returns an ordered list of opaque ids in the server's
native order, oldest first; `resolve` is fetch-by-id. -/
structure MailStore where
  allIds : List Nat
  unreadIds : List Nat
  resolve : Nat → RawMsg

/-- The ids selected by the server-side filter. -/
def serverIds (store : MailStore) (unreadOnly : Bool) : List Nat :=
  if unreadOnly then store.unreadIds else store.allIds

/-- The adapter's normalization of one fetched message: the Message carries
the adapter-assigned identifier, classification absent and usage zero. -/
def resolveMsg (store : MailStore) (i : Nat) : Message :=
  let raw := store.resolve i
  { id := i
    fromAddr := raw.fromAddr
    toAddr := raw.toAddr
    subject := raw.subject
    date := raw.date
    body_excerpt := raw.body_excerpt
    unsubscribe_header := raw.unsubscribe_header
    unsubscribe_post_header := raw.unsubscribe_post_header
    classification := none
    reason := ""
    usage := { input := 0, output := 0 } }

/-- Modelled from the spec: `acquire(count, unread_only)` (spec §4.1): select
ids by filter, take the most recent `count` in server-assigned order (the
last `count` of the oldest-first list), resolve each, and reverse to present
newest-first. -/
def acquire (store : MailStore) (count : Nat) (unreadOnly : Bool) : List Message :=
  let ids := serverIds store unreadOnly
  let recent := ids.drop (ids.length - count)
  (recent.map (resolveMsg store)).reverse

/-- Modelled from the spec: the classifier service's response to one call
(spec §4.2, §6): free-form text plus token counts on success, or a
transport-level failure (which is fatal for the run). -/
inductive ClassifierResult where
  | ok (text : String) (usage : Usage) : ClassifierResult
  | transportError (msg : String) : ClassifierResult

/-- Annotate one message in place with the verdict and usage of its
classifier call. -/
def classifyMsg (v : Verdict) (u : Usage) (m : Message) : Message :=
  { m with classification := some v.classification, reason := v.reason, usage := u }

/-- Modelled from the spec: the Classifier Gateway phase (spec §4.2):
strictly sequential, one call per message; a transport failure aborts the
run; a successful response is parsed by `parseVerdict`.  Returns the
annotated batch (or the fatal error) together with the trace of classifier
calls issued. -/
def classifyAll (oracle : Message → ClassifierResult) :
    List Message → Except String (List Message) × List Effect
  | [] => (.ok [], [])
  | m :: ms =>
    match oracle m with
    | .transportError e => (.error e, [.classifierCall m.id])
    | .ok text u =>
      let m' := classifyMsg (parseVerdict text) u m
      match classifyAll oracle ms with
      | (.ok ms', tr) => (.ok (m' :: ms'), .classifierCall m.id :: tr)
      | (.error e, tr) => (.error e, .classifierCall m.id :: tr)

/-- Does this message carry the `unimportant` classification? -/
def isUnimp (m : Message) : Bool :=
  match m.classification with
  | some .unimportant => true
  | _ => false

/-- Modelled from the spec: the Archival Engine (spec §4.3): on an empty
batch, no mutation at all, not even label creation; otherwise ensure the
label exists, copy+flag each message by its adapter-assigned id, then one
purge.  Returns the archived subjects and the mutation trace. -/
def archive (label : String) (msgs : List Message) : List String × List Effect :=
  if msgs.isEmpty then ([], [])
  else
    let perMsg := msgs.flatMap (fun m => [Effect.copyToLabel m.id label, Effect.flagDelete m.id])
    (msgs.map Message.subject, Effect.labelCreate label :: perMsg ++ [Effect.purge])

/-- Modelled from the spec: the response of a third-party unsubscribe
endpoint (spec §4.4, §6): an HTTP status, or a transport-level exception. -/
inductive HttpResponse where
  | status (code : Nat) : HttpResponse
  | transportError (msg : String) : HttpResponse

/-- An unsubscribe HTTP oracle: `isPost`, URL ↦ response. -/
def HttpOracle := Bool → String → HttpResponse

/-- Modelled from the spec: the per-message Unsubscribe Outcome (spec §3). -/
inductive UnsubOutcome where
  | unsubscribed_oneclick : UnsubOutcome
  | unsubscribed_get : UnsubOutcome
  | no_header : UnsubOutcome
  | mailto_only : UnsubOutcome
  | oneclick_failed (code : Nat) : UnsubOutcome
  | get_failed (code : Nat) : UnsubOutcome
  | request_error (detail : String) : UnsubOutcome
  deriving DecidableEq

/-- The contents of every `<...>` group of a header value. -/
def angleGroups : List Char → Option (List Char) → List String → List String
  | [], _, acc => acc.reverse
  | c :: cs, none, acc =>
    if c == '<' then angleGroups cs (some []) acc else angleGroups cs none acc
  | c :: cs, some cur, acc =>
    if c == '>' then angleGroups cs none (String.mk cur.reverse :: acc)
    else angleGroups cs (some (c :: cur)) acc

/-- Modelled from the spec: "extract all `https?://` URLs enclosed in angle
brackets from the header" (spec §4.4 step 2). -/
def extractHttpUrls (header : String) : List String :=
  (angleGroups header.data none []).filter
    (fun u => isPrefixCh "http://".data u.data || isPrefixCh "https://".data u.data)

/-- Modelled from the spec: does `unsubscribe_post_header` indicate one-click
support — contains the literal one-click marker (spec §4.4 step 4,
RFC 8058's `List-Unsubscribe=One-Click`). -/
def hasOneClick (m : Message) : Bool :=
  containsSeq "One-Click".data m.unsubscribe_post_header.data

/-- The form body of a one-click unsubscribe POST (spec §4.4 step 4). -/
def oneClickBody : String := "List-Unsubscribe=One-Click-Unsubscribe"

/-- Modelled from the spec: the truncation applied to a transport-error
message before recording it (spec §4.4 step 6). -/
def truncateErr (e : String) : String := String.mk (e.data.take 200)

/-- Modelled from the spec: the per-message unsubscribe algorithm
(spec §4.4 steps 1–6).  Returns the outcome and the HTTP requests issued. -/
def unsubscribeOne (http : HttpOracle) (m : Message) : UnsubOutcome × List Effect :=
  if m.unsubscribe_header == "" then (.no_header, [])
  else
    match extractHttpUrls m.unsubscribe_header with
    | [] => (.mailto_only, [])
    | url :: _ =>
      if hasOneClick m then
        match http true url with
        | .status code =>
          if code < 400 then (.unsubscribed_oneclick, [.httpPost url oneClickBody])
          else (.oneclick_failed code, [.httpPost url oneClickBody])
        | .transportError e => (.request_error (truncateErr e), [.httpPost url oneClickBody])
      else
        match http false url with
        | .status code =>
          if code < 400 then (.unsubscribed_get, [.httpGet url])
          else (.get_failed code, [.httpGet url])
        | .transportError e => (.request_error (truncateErr e), [.httpGet url])

/-- Modelled from the spec: the Unsubscribe Engine over a batch (spec §4.4):
strictly sequential, one outcome per message, failures fully isolated per
message.  Returns `(sender, subject, outcome)` triples and the HTTP trace. -/
def unsubscribeBatch (http : HttpOracle) (msgs : List Message) :
    List (String × String × UnsubOutcome) × List Effect :=
  (msgs.map (fun m => (m.fromAddr, m.subject, (unsubscribeOne http m).1)),
   msgs.flatMap (fun m => (unsubscribeOne http m).2))

/-- Modelled from the spec: the orchestrator's inputs (spec §6). -/
structure Config where
  count : Nat
  unread_only : Bool
  dry_run : Bool
  skip_unsubscribe : Bool

/-- Modelled from the spec: the Run Summary aggregate (spec §3, §6): counts
of total/important/unimportant/archived, the dry-run flag, token usage
totals. -/
structure Summary where
  total : Nat
  important : Nat
  unimportant : Nat
  archived : Nat
  dry_run : Bool
  input_tokens : Nat
  output_tokens : Nat
  deriving DecidableEq

/-- Modelled from the spec: the single JSON result of a run (spec §6):
summary, the `important` and `unimportant` lists, and the unsubscribe
results when phase 4 ran. -/
structure Output where
  summary : Summary
  important : List Message
  unimportant : List Message
  unsubscribe_results : Option (List (String × String × UnsubOutcome))

/-- The empty-result summary produced when acquisition yields zero messages
(spec §4.5). -/
def emptyOutput (dryRun : Bool) : Output :=
  { summary := { total := 0, important := 0, unimportant := 0, archived := 0,
                 dry_run := dryRun, input_tokens := 0, output_tokens := 0 }
    important := []
    unimportant := []
    unsubscribe_results := none }

/-- Total input/output token usage of a classified batch. -/
def usageTotals (msgs : List Message) : Nat × Nat :=
  (msgs.foldl (fun acc m => acc + m.usage.input) 0,
   msgs.foldl (fun acc m => acc + m.usage.output) 0)

/-- Modelled from the spec: the Orchestrator's linear state machine
(spec §4.5): ACQUIRE → CLASSIFY → (ARCHIVE ∥ skipped by dry run) →
(UNSUBSCRIBE ∥ skipped by flag or dry run) → SUMMARIZE, short-circuiting to
an empty summary when zero messages are acquired, aborting on a classifier
transport failure.  Returns the run result and the full collaborator-call
trace. -/
def runPipeline (cfg : Config) (label : String) (store : MailStore)
    (oracle : Message → ClassifierResult) (http : HttpOracle) :
    Except String Output × List Effect :=
  let acquired := acquire store cfg.count cfg.unread_only
  if acquired.isEmpty then (.ok (emptyOutput cfg.dry_run), [])
  else
    match classifyAll oracle acquired with
    | (.error e, tr) => (.error e, tr)
    | (.ok cls, tr) =>
      let unimp := cls.filter isUnimp
      let imp := cls.filter (fun m => !isUnimp m)
      let (archivedSubjects, archEffs) :=
        if cfg.dry_run then ([], []) else archive label unimp
      let (unsubRes, unsubEffs) :=
        if cfg.dry_run || cfg.skip_unsubscribe then (none, [])
        else
          let (results, effs) := unsubscribeBatch http unimp
          (some results, effs)
      let totals := usageTotals cls
      (.ok { summary := { total := cls.length
                          important := imp.length
                          unimportant := unimp.length
                          archived := archivedSubjects.length
                          dry_run := cfg.dry_run
                          input_tokens := totals.1
                          output_tokens := totals.2 }
             important := imp
             unimportant := unimp
             unsubscribe_results := unsubRes },
       tr ++ archEffs ++ unsubEffs)

/-- The `archived` count reported by a run, `0` when the run aborted with a
fatal error (no summary is emitted then). -/
def archivedCount : Except String Output → Nat
  | .ok o => o.summary.archived
  | .error _ => 0

/-! ## Helper lemmas -/

theorem lexLe_trans : ∀ a b c : List Char,
    lexLe a b = true → lexLe b c = true → lexLe a c = true := by
  intro a
  induction a with
  | nil => intro b c _ _; rfl
  | cons x xs ih =>
    intro b c hab hbc
    cases b with
    | nil => simp [lexLe] at hab
    | cons y ys =>
      cases c with
      | nil => simp [lexLe] at hbc
      | cons z zs =>
        simp only [lexLe] at hab hbc ⊢
        by_cases h1 : x.toNat < y.toNat
        · by_cases h2 : y.toNat < z.toNat
          · have : x.toNat < z.toNat := Nat.lt_trans h1 h2
            simp [this]
          · by_cases h3 : z.toNat < y.toNat
            · simp [h2, h3] at hbc
            · have : x.toNat < z.toNat := by omega
              simp [this]
        · by_cases h1' : y.toNat < x.toNat
          · simp [h1, h1'] at hab
          · by_cases h2 : y.toNat < z.toNat
            · have : x.toNat < z.toNat := by omega
              simp [this]
            · by_cases h3 : z.toNat < y.toNat
              · simp [h2, h3] at hbc
              · have hxz : ¬ x.toNat < z.toNat := by omega
                have hzx : ¬ z.toNat < x.toNat := by omega
                simp only [h1, h1', if_false] at hab
                simp only [h2, h3, if_false] at hbc
                simp only [hxz, hzx, if_false]
                exact ih ys zs hab hbc

theorem lexLe_total : ∀ a b : List Char, (lexLe a b || lexLe b a) = true := by
  intro a
  induction a with
  | nil => intro b; simp [lexLe]
  | cons x xs ih =>
    intro b
    cases b with
    | nil => simp [lexLe]
    | cons y ys =>
      simp only [lexLe]
      rcases Nat.lt_trichotomy x.toNat y.toNat with h | h | h
      · simp [h]
      · have h1 : ¬ x.toNat < y.toNat := by omega
        have h2 : ¬ y.toNat < x.toNat := by omega
        simpa [h1, h2] using ih ys
      · simp [h, Nat.lt_asymm h]

theorem startLe_trans : ∀ a b c : IcsEvent,
    startLe a b = true → startLe b c = true → startLe a c = true :=
  fun a b c => lexLe_trans a.start.data b.start.data c.start.data

theorem startLe_total : ∀ a b : IcsEvent, (startLe a b || startLe b a) = true :=
  fun a b => lexLe_total a.start.data b.start.data

/-! ## Theorems -/

/-- C8: `fetch_and_parse` returns the in-range events sorted in ascending
order of their ISO `start` string, truncated to the first `max_events`
entries, while `count` reports the total number of in-range events before
truncation; when more than `max_events` events are in range, `count` is
strictly greater than the number of returned events. -/
theorem C8_fetch_truncation (inRange : List IcsEvent) (max_events : Nat)
    (rs re : String) :
    (fetch_and_parse inRange max_events rs re).events.Pairwise
        (fun a b => startLe a b = true) ∧
    (fetch_and_parse inRange max_events rs re).events <+:
        inRange.mergeSort startLe ∧
    (inRange.mergeSort startLe).Perm inRange ∧
    (fetch_and_parse inRange max_events rs re).events.length =
        min max_events inRange.length ∧
    (fetch_and_parse inRange max_events rs re).count = inRange.length ∧
    (max_events < inRange.length →
      (fetch_and_parse inRange max_events rs re).events.length <
        (fetch_and_parse inRange max_events rs re).count) := by
  have hsorted : (inRange.mergeSort startLe).Pairwise (fun a b => startLe a b = true) :=
    List.sorted_mergeSort (fun a b c => startLe_trans a b c) startLe_total inRange
  refine ⟨?_, ?_, ?_, ?_, ?_, ?_⟩
  · exact hsorted.sublist (List.take_sublist _ _)
  · exact List.take_prefix _ _
  · exact List.mergeSort_perm inRange startLe
  · simp [fetch_and_parse, List.length_take, List.length_mergeSort]
  · rfl
  · intro hlt
    have h1 : (fetch_and_parse inRange max_events rs re).events.length =
        min max_events inRange.length := by
      simp [fetch_and_parse, List.length_take, List.length_mergeSort]
    have h2 : (fetch_and_parse inRange max_events rs re).count = inRange.length := rfl
    omega

/-- Concrete events for the C8 witness. -/
def wEventA : IcsEvent :=
  { summary := "A", start := "2026-10-12T09:00:00+11:00", end_ := none,
    location := "", description := "", uid := "a" }

def wEventB : IcsEvent :=
  { summary := "B", start := "2026-10-12T10:00:00+11:00", end_ := none,
    location := "", description := "", uid := "b" }

/-- Witness for C8 at a concrete over-full batch. -/
theorem C8_fetch_truncation_witness :
    1 < [wEventB, wEventA].length ∧
    (fetch_and_parse [wEventB, wEventA] 1 "" "").events.length <
      (fetch_and_parse [wEventB, wEventA] 1 "" "").count :=
  ⟨by decide, (C8_fetch_truncation [wEventB, wEventA] 1 "" "").2.2.2.2.2 (by decide)⟩

/-- C9: in `calendar_update`, every event field whose command-line flag is
not supplied is left unchanged, and the update is asymmetric for empty
strings: an empty `--summary` is ignored while an empty `--description` or
`--location` overwrites the field with the empty string. -/
theorem C9_update_frame (ev : CalEvent) (s d l st en : Option String) (tz : String) :
    (updateEventFields ⟨none, d, l, st, en, tz⟩ ev).summary = ev.summary ∧
    (updateEventFields ⟨some "", d, l, st, en, tz⟩ ev).summary = ev.summary ∧
    (updateEventFields ⟨s, none, l, st, en, tz⟩ ev).description = ev.description ∧
    (updateEventFields ⟨s, some "", l, st, en, tz⟩ ev).description = "" ∧
    (updateEventFields ⟨s, d, none, st, en, tz⟩ ev).location = ev.location ∧
    (updateEventFields ⟨s, d, some "", st, en, tz⟩ ev).location = "" ∧
    (updateEventFields ⟨s, d, l, none, en, tz⟩ ev).start = ev.start ∧
    (updateEventFields ⟨s, d, l, st, none, tz⟩ ev).end_ = ev.end_ := by
  refine ⟨?_, ?_, ?_, ?_, ?_, ?_, ?_, ?_⟩ <;>
    cases s <;> cases d <;> cases l <;> cases st <;> cases en <;>
    simp only [updateEventFields] <;> (repeat' split) <;> simp_all

/-- C10: `daily_briefing.py` parses the subprocess stdout with `json.loads`
without checking the exit status: the briefing depends only on `stdout`, and
whenever `stdout` is not valid JSON the script raises an uncaught exception
and prints no briefing. -/
theorem C10_briefing_unchecked_json (todayStr : String) (res res' : SubprocResult) :
    (res.stdout = res'.stdout →
      dailyBriefing todayStr res = dailyBriefing todayStr res') ∧
    (jsonParse res.stdout.data = none →
      dailyBriefing todayStr res = .error "JSONDecodeError" ∧
      printedBriefing todayStr res = none) := by
  constructor
  · intro h
    simp [dailyBriefing, h]
  · intro h
    have hb : dailyBriefing todayStr res = .error "JSONDecodeError" := by
      simp [dailyBriefing, h]
    exact ⟨hb, by simp [printedBriefing, hb]⟩

/-- Witness for C10: a failed child that printed nothing (empty stdout,
non-zero exit status) aborts the briefing. -/
theorem C10_briefing_unchecked_json_witness :
    (jsonParse ("" : String).data = none) ∧
    dailyBriefing "Sunday, 12 October 2026" ⟨"", "boom", 1⟩ = .error "JSONDecodeError" ∧
    printedBriefing "Sunday, 12 October 2026" ⟨"", "boom", 1⟩ = none :=
  ⟨rfl,
   (C10_briefing_unchecked_json "Sunday, 12 October 2026" ⟨"", "boom", 1⟩
      ⟨"", "boom", 1⟩).2 rfl⟩

/-- C1: whenever the classifier call succeeds but its response text contains
no locatable, parseable JSON object (no located JSON object substring parses
— e.g. `"blah not json"`), the verdict is exactly
`{important, "could not parse, defaulting to important"}`, and the message is
annotated with that default while the batch continues to be processed rather
than failing. -/
theorem C1_unparseable_default (text : String)
    (h : ∀ js, extractJsonChars text.data = some js → jsonParse js = none) :
    parseVerdict text =
      { classification := .important,
        reason := "could not parse, defaulting to important" } ∧
    ∀ (oracle : Message → ClassifierResult) (m : Message) (ms : List Message)
      (u : Usage), oracle m = .ok text u →
      classifyAll oracle (m :: ms) =
        ((classifyAll oracle ms).1.map (fun ms' =>
            classifyMsg
              { classification := .important,
                reason := "could not parse, defaulting to important" } u m :: ms'),
         .classifierCall m.id :: (classifyAll oracle ms).2) := by
  have hpv : parseVerdict text =
      { classification := .important,
        reason := "could not parse, defaulting to important" } := by
    rcases hE : extractJsonChars text.data with _ | js
    · simp [parseVerdict, hE, defaultVerdict]
    · simp [parseVerdict, hE, h js hE, defaultVerdict]
  refine ⟨hpv, ?_⟩
  intro oracle m ms u hO
  simp only [classifyAll, hO]
  rcases hC : classifyAll oracle ms with ⟨res, tr⟩
  cases res <;> simp [hpv, Except.map]

/-- C5: archiving an empty unimportant set performs no mailbox mutation at
all — no label creation, no copy/flag/purge — and returns successfully. -/
theorem C5_archive_empty_noop (label : String) :
    archive label [] = ([], []) := rfl

theorem classifyAll_ok_classified (oracle : Message → ClassifierResult) :
    ∀ (msgs cls : List Message) (tr : List Effect),
    classifyAll oracle msgs = (.ok cls, tr) →
    ∀ m ∈ cls, ∃ c, m.classification = some c := by
  intro msgs
  induction msgs with
  | nil =>
    intro cls tr h m hm
    simp only [classifyAll, Prod.mk.injEq, Except.ok.injEq] at h
    obtain ⟨h1, _⟩ := h
    rw [← h1] at hm
    simp at hm
  | cons m0 ms ih =>
    intro cls tr h m hm
    simp only [classifyAll] at h
    rcases hO : oracle m0 with ⟨text, u⟩ | e
    · rw [hO] at h
      rcases hC : classifyAll oracle ms with ⟨res, tr2⟩
      rw [hC] at h
      cases res with
      | ok ms' =>
        simp only [Prod.mk.injEq, Except.ok.injEq] at h
        obtain ⟨h1, _⟩ := h
        rw [← h1] at hm
        rcases List.mem_cons.mp hm with hm1 | hm2
        · exact ⟨(parseVerdict text).classification, by rw [hm1]; rfl⟩
        · exact ih ms' tr2 hC m hm2
      | error e => simp at h
    · rw [hO] at h
      simp at h

theorem classifyAll_ok_ids (oracle : Message → ClassifierResult) :
    ∀ (msgs cls : List Message) (tr : List Effect),
    classifyAll oracle msgs = (.ok cls, tr) →
    cls.map Message.id = msgs.map Message.id := by
  intro msgs
  induction msgs with
  | nil =>
    intro cls tr h
    simp only [classifyAll, Prod.mk.injEq, Except.ok.injEq] at h
    obtain ⟨h1, _⟩ := h
    rw [← h1]
  | cons m0 ms ih =>
    intro cls tr h
    simp only [classifyAll] at h
    rcases hO : oracle m0 with ⟨text, u⟩ | e
    · rw [hO] at h
      rcases hC : classifyAll oracle ms with ⟨res, tr2⟩
      rw [hC] at h
      cases res with
      | ok ms' =>
        simp only [Prod.mk.injEq, Except.ok.injEq] at h
        obtain ⟨h1, _⟩ := h
        rw [← h1]
        simp only [List.map_cons]
        rw [ih ms' tr2 hC]
        rfl
      | error e => simp at h
    · rw [hO] at h
      simp at h

theorem classifyAll_trace_pure (oracle : Message → ClassifierResult) :
    ∀ (msgs : List Message),
    ∀ e ∈ (classifyAll oracle msgs).2, e.isMutation = false := by
  intro msgs
  induction msgs with
  | nil => intro e he; simp [classifyAll] at he
  | cons m0 ms ih =>
    intro e he
    simp only [classifyAll] at he
    rcases hO : oracle m0 with ⟨text, u⟩ | err
    · rw [hO] at he
      rcases hC : classifyAll oracle ms with ⟨res, tr2⟩
      rw [hC] at he
      cases res with
      | ok ms' =>
        simp only at he
        rcases List.mem_cons.mp he with h1 | h2
        · rw [h1]; rfl
        · exact ih e (by rw [hC]; exact h2)
      | error e2 =>
        simp only at he
        rcases List.mem_cons.mp he with h1 | h2
        · rw [h1]; rfl
        · exact ih e (by rw [hC]; exact h2)
    · rw [hO] at he
      simp only at he
      rcases List.mem_cons.mp he with h1 | h2
      · rw [h1]; rfl
      · simp at h2

/-- C2: on every completed run, the `important`/`unimportant` output lists
partition the acquired batch — each message is in exactly one list, every
listed message has a non-empty classification, and together (by id) they are
exactly the acquired messages. -/
theorem C2_partition (cfg : Config) (label : String) (store : MailStore)
    (oracle : Message → ClassifierResult) (http : HttpOracle) (o : Output)
    (tr : List Effect)
    (h : runPipeline cfg label store oracle http = (.ok o, tr)) :
    (∀ m ∈ o.important, classStr m.classification ≠ "" ∧ m ∉ o.unimportant) ∧
    (∀ m ∈ o.unimportant, classStr m.classification ≠ "" ∧ m ∉ o.important) ∧
    ((o.important ++ o.unimportant).map Message.id).Perm
      ((acquire store cfg.count cfg.unread_only).map Message.id) := by
  simp only [runPipeline] at h
  cases hA : (acquire store cfg.count cfg.unread_only).isEmpty with
  | true =>
    rw [hA] at h
    simp only [if_pos, Prod.mk.injEq, Except.ok.injEq] at h
    obtain ⟨h1, _⟩ := h
    rw [← h1]
    have hAcq : acquire store cfg.count cfg.unread_only = [] :=
      List.isEmpty_iff.mp hA
    simp [emptyOutput, hAcq]
  | false =>
    rw [hA] at h
    simp only [Bool.false_eq_true, if_false] at h
    rcases hC : classifyAll oracle (acquire store cfg.count cfg.unread_only)
      with ⟨res, trc⟩
    rw [hC] at h
    cases res with
    | error e => simp at h
    | ok cls =>
      simp only [Prod.mk.injEq, Except.ok.injEq] at h
      obtain ⟨h1, _⟩ := h
      have hcl : ∀ m ∈ cls, ∃ c, m.classification = some c :=
        classifyAll_ok_classified oracle _ cls trc hC
      have hids : cls.map Message.id =
          (acquire store cfg.count cfg.unread_only).map Message.id :=
        classifyAll_ok_ids oracle _ cls trc hC
      have himp : o.important = cls.filter (fun m => !isUnimp m) := by
        rw [← h1]
      have hunimp : o.unimportant = cls.filter isUnimp := by
        rw [← h1]
      refine ⟨?_, ?_, ?_⟩
      · intro m hm
        rw [himp] at hm
        obtain ⟨hin, hp⟩ := List.mem_filter.mp hm
        refine ⟨?_, ?_⟩
        · obtain ⟨c, hc⟩ := hcl m hin
          cases c <;> simp [classStr, hc]
        · intro hm'
          rw [hunimp] at hm'
          obtain ⟨_, hp'⟩ := List.mem_filter.mp hm'
          rw [hp'] at hp
          simp at hp
      · intro m hm
        rw [hunimp] at hm
        obtain ⟨hin, hp⟩ := List.mem_filter.mp hm
        refine ⟨?_, ?_⟩
        · obtain ⟨c, hc⟩ := hcl m hin
          cases c <;> simp [classStr, hc]
        · intro hm'
          rw [himp] at hm'
          obtain ⟨_, hp'⟩ := List.mem_filter.mp hm'
          rw [hp] at hp'
          simp at hp'
      · have hperm : (cls.filter (fun m => !isUnimp m) ++ cls.filter isUnimp).Perm cls := by
          have hbase := List.filter_append_perm (fun m => !isUnimp m) cls
          have hcong : cls.filter (fun x => !(!isUnimp x)) = cls.filter isUnimp := by
            apply List.filter_congr
            intro a _
            simp
          rwa [hcong] at hbase
        rw [himp, hunimp]
        exact (hperm.map Message.id).trans (by rw [hids])

/-- C3: with `dry_run = true` no archive mutation and no unsubscribe HTTP
call is issued to any collaborator, and the reported `archived` count is 0,
whatever the classifications were. -/
theorem C3_dry_run_frame (c : Nat) (u s : Bool) (label : String)
    (store : MailStore) (oracle : Message → ClassifierResult) (http : HttpOracle) :
    (runPipeline ⟨c, u, true, s⟩ label store oracle http).2.filter
        Effect.isMutation = [] ∧
    archivedCount (runPipeline ⟨c, u, true, s⟩ label store oracle http).1 = 0 := by
  simp only [runPipeline]
  cases hA : (acquire store c u).isEmpty with
  | true => simp [archivedCount, emptyOutput]
  | false =>
    rcases hC : classifyAll oracle (acquire store c u) with ⟨res, trc⟩
    have htrc : ∀ e ∈ trc, e.isMutation = false := by
      intro e he
      exact classifyAll_trace_pure oracle _ e (by rw [hC]; exact he)
    cases res with
    | error e =>
      simp only
      refine ⟨?_, rfl⟩
      rw [List.filter_eq_nil_iff]
      intro a ha
      simp [htrc a ha]
    | ok cls =>
      simp only [Bool.true_or, if_true, List.append_nil]
      refine ⟨?_, rfl⟩
      rw [List.filter_eq_nil_iff]
      intro a ha
      simp [htrc a ha]

/-- C7: when acquisition yields zero messages the orchestrator
short-circuits to summarization — no classifier call, no archive, no
unsubscribe — and still produces exactly the empty-result summary. -/
theorem C7_empty_short_circuit (cfg : Config) (label : String)
    (store : MailStore) (oracle : Message → ClassifierResult) (http : HttpOracle)
    (h : acquire store cfg.count cfg.unread_only = []) :
    runPipeline cfg label store oracle http =
      (.ok (emptyOutput cfg.dry_run), []) := by
  simp [runPipeline, h]

/-- C4: the per-message unsubscribe algorithm — empty header ⇒ `no_header`
with zero HTTP calls; no angle-bracketed http(s) URL ⇒ `mailto_only`;
one-click support ⇒ exactly one POST with the `List-Unsubscribe=
One-Click-Unsubscribe` form body (status < 400 ⇒ `unsubscribed_oneclick`,
otherwise `oneclick_failed`); otherwise exactly one GET to the first URL
(status < 400 ⇒ `unsubscribed_get`, otherwise `get_failed`); a transport
exception ⇒ `request_error`, never fatal; and one message's processing never
affects its siblings in the batch. -/
theorem C4_unsubscribe_cases (http : HttpOracle) (m : Message) (url : String)
    (rest : List String) (code : Nat) (err : String) (l1 l2 : List Message) :
    (m.unsubscribe_header = "" → unsubscribeOne http m = (.no_header, [])) ∧
    (m.unsubscribe_header ≠ "" →
      extractHttpUrls m.unsubscribe_header = [] →
      unsubscribeOne http m = (.mailto_only, [])) ∧
    (m.unsubscribe_header ≠ "" →
      extractHttpUrls m.unsubscribe_header = url :: rest →
      hasOneClick m = true → http true url = .status code → code < 400 →
      unsubscribeOne http m =
        (.unsubscribed_oneclick, [.httpPost url oneClickBody])) ∧
    (m.unsubscribe_header ≠ "" →
      extractHttpUrls m.unsubscribe_header = url :: rest →
      hasOneClick m = true → http true url = .status code → ¬ code < 400 →
      unsubscribeOne http m =
        (.oneclick_failed code, [.httpPost url oneClickBody])) ∧
    (m.unsubscribe_header ≠ "" →
      extractHttpUrls m.unsubscribe_header = url :: rest →
      hasOneClick m = true → http true url = .transportError err →
      unsubscribeOne http m =
        (.request_error (truncateErr err), [.httpPost url oneClickBody])) ∧
    (m.unsubscribe_header ≠ "" →
      extractHttpUrls m.unsubscribe_header = url :: rest →
      hasOneClick m = false → http false url = .status code → code < 400 →
      unsubscribeOne http m = (.unsubscribed_get, [.httpGet url])) ∧
    (m.unsubscribe_header ≠ "" →
      extractHttpUrls m.unsubscribe_header = url :: rest →
      hasOneClick m = false → http false url = .status code → ¬ code < 400 →
      unsubscribeOne http m = (.get_failed code, [.httpGet url])) ∧
    (m.unsubscribe_header ≠ "" →
      extractHttpUrls m.unsubscribe_header = url :: rest →
      hasOneClick m = false → http false url = .transportError err →
      unsubscribeOne http m =
        (.request_error (truncateErr err), [.httpGet url])) ∧
    unsubscribeBatch http (l1 ++ m :: l2) =
      ((unsubscribeBatch http l1).1 ++
        (m.fromAddr, m.subject, (unsubscribeOne http m).1) ::
          (unsubscribeBatch http l2).1,
       (unsubscribeBatch http l1).2 ++
        (unsubscribeOne http m).2 ++ (unsubscribeBatch http l2).2) := by
  refine ⟨?_, ?_, ?_, ?_, ?_, ?_, ?_, ?_, ?_⟩
  · intro h
    simp [unsubscribeOne, h]
  · intro h hurls
    simp [unsubscribeOne, h, hurls]
  · intro h hurls h1c hresp hlt
    simp [unsubscribeOne, h, hurls, h1c, hresp, hlt]
  · intro h hurls h1c hresp hge
    simp [unsubscribeOne, h, hurls, h1c, hresp, hge]
  · intro h hurls h1c hresp
    simp [unsubscribeOne, h, hurls, h1c, hresp]
  · intro h hurls h1c hresp hlt
    simp [unsubscribeOne, h, hurls, h1c, hresp, hlt]
  · intro h hurls h1c hresp hge
    simp [unsubscribeOne, h, hurls, h1c, hresp, hge]
  · intro h hurls h1c hresp
    simp [unsubscribeOne, h, hurls, h1c, hresp]
  · simp [unsubscribeBatch, List.map_append, List.flatMap_append]

/-- C6: `acquire(count, unread_only)` returns at most `count` messages,
ordered newest first (strictly descending server-assigned ids, the server
order being oldest first), with pairwise-distinct ids. -/
theorem C6_acquire_bounds (store : MailStore) (count : Nat) (u : Bool)
    (h : (serverIds store u).Pairwise (· < ·)) :
    (acquire store count u).length ≤ count ∧
    ((acquire store count u).map Message.id).Pairwise (· > ·) ∧
    ((acquire store count u).map Message.id).Nodup := by
  have hmap : (acquire store count u).map Message.id =
      ((serverIds store u).drop ((serverIds store u).length - count)).reverse := by
    simp only [acquire, List.map_reverse, List.map_map]
    have hfun : (Message.id ∘ resolveMsg store) = id := rfl
    rw [hfun, List.map_id]
  have hdrop : ((serverIds store u).drop
      ((serverIds store u).length - count)).Pairwise (· < ·) :=
    List.Pairwise.sublist (List.drop_sublist _ _) h
  have hdesc : (((serverIds store u).drop
      ((serverIds store u).length - count)).reverse).Pairwise
      (fun a b : Nat => a > b) := by
    rw [List.pairwise_reverse]
    exact hdrop
  refine ⟨?_, ?_, ?_⟩
  · have : (acquire store count u).length =
        ((serverIds store u).drop ((serverIds store u).length - count)).length := by
      simp [acquire]
    rw [this, List.length_drop]
    omega
  · rw [hmap]
    exact hdesc
  · rw [hmap]
    exact hdesc.imp (fun hab => Nat.ne_of_gt hab)

/-- Concrete raw message used by witnesses. -/
def wRaw : RawMsg :=
  { fromAddr := "news@example.org", toAddr := "me@example.org",
    subject := "weekly digest", date := "Sun, 12 Oct 2026 09:00:00 +1100",
    body_excerpt := "hello", unsubscribe_header := "",
    unsubscribe_post_header := "" }

/-- Concrete one-message store used by the C2 witness. -/
def wStoreOne : MailStore :=
  { allIds := [5], unreadIds := [], resolve := fun _ => wRaw }

/-- Concrete classifier oracle whose response text holds no JSON object. -/
def wOracle : Message → ClassifierResult :=
  fun _ => .ok "no json here" { input := 3, output := 4 }

/-- Concrete HTTP oracle that always answers 200. -/
def wHttp200 : HttpOracle := fun _ _ => .status 200

/-- Concrete configuration for the C2 witness run. -/
def wCfg : Config :=
  { count := 10, unread_only := false, dry_run := false, skip_unsubscribe := false }

/-- The C2 witness run and its output. -/
def wRun : Except String Output × List Effect :=
  runPipeline wCfg "Unimportant" wStoreOne wOracle wHttp200

/-- The output object of the C2 witness run. -/
def wOut : Output :=
  match wRun.1 with
  | .ok o => o
  | .error _ => emptyOutput false

/-- The effect trace of the C2 witness run. -/
def wTr : List Effect := wRun.2

/-- Witness for C2 on a concrete completed run. -/
theorem C2_partition_witness :
    (∀ m ∈ wOut.important, classStr m.classification ≠ "" ∧ m ∉ wOut.unimportant) ∧
    (∀ m ∈ wOut.unimportant, classStr m.classification ≠ "" ∧ m ∉ wOut.important) ∧
    ((wOut.important ++ wOut.unimportant).map Message.id).Perm
      ((acquire wStoreOne wCfg.count wCfg.unread_only).map Message.id) :=
  C2_partition wCfg "Unimportant" wStoreOne wOracle wHttp200 wOut wTr rfl

/-- Concrete message with no unsubscribe header. -/
def wMsgNoHeader : Message := resolveMsg wStoreOne 5

/-- Concrete message with a one-click unsubscribe header pair. -/
def wMsgOneClick : Message :=
  { wMsgNoHeader with
      unsubscribe_header := "<https://x.test/u>",
      unsubscribe_post_header := "List-Unsubscribe=One-Click" }

/-- Concrete message with a GET-only unsubscribe header. -/
def wMsgGet : Message :=
  { wMsgNoHeader with unsubscribe_header := "<https://x.test/u>" }

/-- Witness for C4 on concrete messages and a 200-status oracle. -/
theorem C4_unsubscribe_cases_witness :
    unsubscribeOne wHttp200 wMsgNoHeader = (.no_header, []) ∧
    unsubscribeOne wHttp200 wMsgOneClick =
      (.unsubscribed_oneclick, [.httpPost "https://x.test/u" oneClickBody]) ∧
    unsubscribeOne wHttp200 wMsgGet =
      (.unsubscribed_get, [.httpGet "https://x.test/u"]) :=
  ⟨(C4_unsubscribe_cases wHttp200 wMsgNoHeader "" [] 0 "" [] []).1 rfl,
   (C4_unsubscribe_cases wHttp200 wMsgOneClick "https://x.test/u" [] 200 "" [] []).2.2.1
     (by decide) (by rfl) (by rfl) (by rfl) (by decide),
   (C4_unsubscribe_cases wHttp200 wMsgGet "https://x.test/u" [] 200 "" [] []).2.2.2.2.2.1
     (by decide) (by rfl) (by rfl) (by rfl) (by decide)⟩

/-- Concrete three-message store used by the C6 witness. -/
def wStoreThree : MailStore :=
  { allIds := [3, 7, 9], unreadIds := [7], resolve := fun _ => wRaw }

/-- Witness for C6 on a concrete strictly-ascending store. -/
theorem C6_acquire_bounds_witness :
    (serverIds wStoreThree false).Pairwise (· < ·) ∧
    ((acquire wStoreThree 2 false).length ≤ 2 ∧
     ((acquire wStoreThree 2 false).map Message.id).Pairwise (· > ·) ∧
     ((acquire wStoreThree 2 false).map Message.id).Nodup) :=
  ⟨by decide, C6_acquire_bounds wStoreThree 2 false (by decide)⟩

/-- Concrete empty store used by the C7 witness. -/
def wStoreEmpty : MailStore :=
  { allIds := [], unreadIds := [], resolve := fun _ => wRaw }

/-- Witness for C7 on a concrete empty mailbox. -/
theorem C7_empty_short_circuit_witness :
    acquire wStoreEmpty wCfg.count wCfg.unread_only = [] ∧
    runPipeline wCfg "Unimportant" wStoreEmpty wOracle wHttp200 =
      (.ok (emptyOutput wCfg.dry_run), []) :=
  ⟨rfl, C7_empty_short_circuit wCfg "Unimportant" wStoreEmpty wOracle wHttp200 rfl⟩

/-- Concrete classifier oracle answering the claim's example text. -/
def wOracleBlah : Message → ClassifierResult :=
  fun _ => .ok "blah not json" { input := 3, output := 4 }

/-- Witness for C1 at the response text `"blah not json"` on a concrete
one-message batch. -/
theorem C1_unparseable_default_witness :
    (∀ js, extractJsonChars ("blah not json").data = some js → jsonParse js = none) ∧
    parseVerdict "blah not json" =
      { classification := .important,
        reason := "could not parse, defaulting to important" } ∧
    classifyAll wOracleBlah (wMsgNoHeader :: []) =
      ((classifyAll wOracleBlah []).1.map (fun ms' =>
          classifyMsg
            { classification := .important,
              reason := "could not parse, defaulting to important" }
            { input := 3, output := 4 } wMsgNoHeader :: ms'),
       .classifierCall wMsgNoHeader.id :: (classifyAll wOracleBlah []).2) :=
  ⟨fun _ h => Option.noConfusion h,
   (C1_unparseable_default "blah not json" (fun _ h => Option.noConfusion h)).1,
   (C1_unparseable_default "blah not json" (fun _ h => Option.noConfusion h)).2
     wOracleBlah wMsgNoHeader [] { input := 3, output := 4 } rfl⟩
